import Mathlib

/-!
Shallow embedding of the docs-scraper ingestion/retrieval engine.

Strings are modelled as `List Char` (`Str`).  JavaScript's `toLowerCase` is
modelled character-wise via `Char.toLower` (ASCII case folding); regular
expressions over literal patterns are modelled by explicit scanning functions
with the same leftmost, non-overlapping semantics.  Scanning loops that are
not structurally recursive use an explicit fuel argument equal to the input
length, which suffices because every step consumes at least one character.
Wall-clock timestamps (`scrapedAt`, `lastUpdated`) are omitted from the data
model: no claim mentions them.
-/

abbrev Str := List Char

/-- Character list of a string literal. -/
def strL (s : String) : Str := s.data

/-- The backtick character (written via its code point). -/
def btick : Char := Char.ofNat 96

/-- JavaScript regex `\s` class, restricted to its ASCII members. -/
def isSpace (c : Char) : Bool :=
  c = ' ' || c = '\t' || c = '\n' || c = '\r' || c = '\x0b' || c = '\x0c'

/-- Boolean prefix test on character lists. -/
def isPref : Str → Str → Bool
  | [], _ => true
  | _ :: _, [] => false
  | p :: ps, t :: ts => p = t && isPref ps ts

/-- JavaScript `text.includes(pat)`: substring containment. -/
def containsL (pat : Str) : Str → Bool
  | [] => pat.isEmpty
  | c :: rest => isPref pat (c :: rest) || containsL pat rest

/-- JavaScript `text.indexOf(pat)`: index of the first occurrence. -/
def firstIdx (pat : Str) : Str → Option Nat
  | [] => if isPref pat [] then some 0 else none
  | c :: rest =>
    if isPref pat (c :: rest) then some 0
    else (firstIdx pat rest).map (fun n => n + 1)

/-- Fuelled scan counting leftmost non-overlapping occurrences of a
nonempty pattern (the semantics of `text.match(/pat/g).length`). -/
def countOccAux (pat : Str) : Nat → Str → Nat
  | 0, _ => 0
  | _ + 1, [] => 0
  | fuel + 1, c :: rest =>
    if isPref pat (c :: rest) then countOccAux pat fuel ((c :: rest).drop pat.length) + 1
    else countOccAux pat fuel rest

/-- Occurrence count of `pat` in `text`; an empty regex pattern matches at
every position, giving `text.length + 1` matches. -/
def countOcc (pat text : Str) : Nat :=
  if pat.isEmpty then text.length + 1 else countOccAux pat text.length text

/-- Character-wise model of JavaScript `toLowerCase()`. -/
def lowerL (t : Str) : Str := t.map Char.toLower

/-- Accumulator for `splitRuns`: `cur` holds the current token reversed. -/
def splitRunsAux (cur : Str) : Str → List Str
  | [] => if cur.isEmpty then [] else [cur.reverse]
  | c :: rest =>
    if isSpace c then
      if cur.isEmpty then splitRunsAux [] rest
      else cur.reverse :: splitRunsAux [] rest
    else splitRunsAux (c :: cur) rest

/-- JavaScript `t.split(/\s+/).filter(Boolean)`: the maximal runs of
non-whitespace characters. -/
def splitRuns (t : Str) : List Str := splitRunsAux [] t

/-- Accumulator for `collapseWs`; the flag records whether the previous
character was whitespace. -/
def collapseWsAux : Bool → Str → Str
  | _, [] => []
  | afterSpace, c :: rest =>
    if isSpace c then
      if afterSpace then collapseWsAux true rest
      else ' ' :: collapseWsAux true rest
    else c :: collapseWsAux false rest

/-- JavaScript `t.replace(/\s+/g, " ")`. -/
def collapseWs (t : Str) : Str := collapseWsAux false t

/-- JavaScript `t.trim()`. -/
def trimL (t : Str) : Str :=
  List.reverse (List.dropWhile isSpace (List.reverse (List.dropWhile isSpace t)))

/-- Accumulator for `countRuns`; the flag records whether we are inside a
token. -/
def countRunsAux : Bool → Str → Nat
  | _, [] => 0
  | inWord, c :: rest =>
    if isSpace c then countRunsAux false rest
    else if inWord then countRunsAux true rest
    else countRunsAux true rest + 1

/-- Number of maximal non-whitespace runs: the length of
`t.split(/\s+/).filter(Boolean)`. -/
def countRuns (t : Str) : Nat := countRunsAux false t

/-- A fenced-code delimiter: three backticks. -/
def fenceStr : Str := [btick, btick, btick]

/-- Fuelled global replace of `/```[\s\S]*?```/` with the empty string: drop
the leftmost fence pair (non-greedy) and continue after it. -/
def stripCodeBlocksAux : Nat → Str → Str
  | 0, t => t
  | fuel + 1, t =>
    match firstIdx fenceStr t with
    | none => t
    | some i =>
      match firstIdx fenceStr (t.drop (i + 3)) with
      | none => t
      | some j => t.take i ++ stripCodeBlocksAux fuel (t.drop (i + 3 + j + 3))

/-- `content.replace(/```[\s\S]*?```/g, "")`. -/
def stripCodeBlocks (t : Str) : Str := stripCodeBlocksAux t.length t

/-- Fuelled global replace of an inline code span `` `[^`]+` `` with the
empty string. -/
def stripInlineCodeAux : Nat → Str → Str
  | 0, t => t
  | _ + 1, [] => []
  | fuel + 1, c :: rest =>
    if c = btick then
      match rest.takeWhile (fun d => d ≠ btick), rest.dropWhile (fun d => d ≠ btick) with
      | [], _ => c :: stripInlineCodeAux fuel rest
      | _ :: _, d :: tail =>
        if d = btick then stripInlineCodeAux fuel tail
        else c :: stripInlineCodeAux fuel rest
      | _ :: _, [] => c :: stripInlineCodeAux fuel rest
    else c :: stripInlineCodeAux fuel rest

/-- `content.replace(/`[^`]+`/g, "")`. -/
def stripInlineCode (t : Str) : Str := stripInlineCodeAux t.length t

/-- Fuelled global replace of `/\[([^\]]+)\]\(([^)]+)\)/` with the link
label `$1`; the label is emitted verbatim and not rescanned, as in
JavaScript `replace`. -/
def stripLinksAux : Nat → Str → Str
  | 0, t => t
  | _ + 1, [] => []
  | fuel + 1, c :: rest =>
    if c = '[' then
      match rest.takeWhile (fun d => d ≠ ']'), rest.dropWhile (fun d => d ≠ ']') with
      | lbl@(_ :: _), ']' :: '(' :: r3 =>
        (match r3.takeWhile (fun d => d ≠ ')'), r3.dropWhile (fun d => d ≠ ')') with
         | _ :: _, ')' :: tail => lbl ++ stripLinksAux fuel tail
         | _, _ => c :: stripLinksAux fuel rest)
      | _, _ => c :: stripLinksAux fuel rest
    else c :: stripLinksAux fuel rest

/-- `content.replace(/\[([^\]]+)\]\([^)]+\)/g, "$1")`. -/
def stripLinks (t : Str) : Str := stripLinksAux t.length t

/-- Membership in the character class `[#*_~`>]`. -/
def isMdSymbol (c : Char) : Bool :=
  c = '#' || c = '*' || c = '_' || c = '~' || c = btick || c = '>'

/-- `content.replace(/[#*_~`>]/g, "")`. -/
def removeMdSymbols (t : Str) : Str := t.filter (fun c => !isMdSymbol c)

/-- The `countWords` function of the scrape tool: strip fenced code blocks,
inline code, link syntax (keeping labels), markdown symbols, collapse and
trim whitespace, then count the non-empty whitespace-separated tokens. -/
def countWords (content : Str) : Nat :=
  let cleaned :=
    trimL (collapseWs (removeMdSymbols (stripLinks (stripInlineCode (stripCodeBlocks content)))))
  if cleaned.isEmpty then 0 else countRuns cleaned

/-- Accumulator for `collapseNewlines`. -/
def collapseNewlinesAux : Bool → Str → Str
  | _, [] => []
  | afterNl, c :: rest =>
    if c = '\n' then
      if afterNl then collapseNewlinesAux true rest
      else ' ' :: collapseNewlinesAux true rest
    else c :: collapseNewlinesAux false rest

/-- JavaScript `t.replace(/\n+/g, " ")`. -/
def collapseNewlines (t : Str) : Str := collapseNewlinesAux false t

/-- Accumulator for `splitLines`. -/
def splitLinesAux (cur : Str) : Str → List Str
  | [] => [cur.reverse]
  | c :: rest =>
    if c = '\n' then cur.reverse :: splitLinesAux [] rest
    else splitLinesAux (c :: cur) rest

/-- JavaScript `content.split("\n")`. -/
def splitLines (t : Str) : List Str := splitLinesAux [] t

/-- The line prefixes skipped by `extractDescription` (headings, code
fences, tables, list items, blockquotes, images). -/
def descSkip (t : Str) : Bool :=
  isPref (strL "#") t || isPref fenceStr t || isPref (strL "|") t ||
    isPref (strL "-") t || isPref (strL "*") t || isPref (strL ">") t || isPref (strL "!") t

/-- `trimmed.replace(/[*_`]/g, "")` used when cleaning a description line. -/
def removeEmphasis (t : Str) : Str :=
  t.filter (fun c => !(c = '*' || c = '_' || c = btick))

/-- Scan the (non-blank) lines for the first qualifying description line. -/
def extractDescFrom (maxLength : Nat) : List Str → Str
  | [] => []
  | line :: rest =>
    let trimmed := trimL line
    if descSkip trimmed then extractDescFrom maxLength rest
    else if 20 < trimmed.length then
      let cleaned := removeEmphasis (stripLinks trimmed)
      if maxLength < cleaned.length then cleaned.take (maxLength - 3) ++ strL "..."
      else cleaned
    else extractDescFrom maxLength rest

/-- The `extractDescription` function of the scrape tool. -/
def extractDescription (content : Str) (maxLength : Nat) : Str :=
  extractDescFrom maxLength ((splitLines content).filter (fun l => !(trimL l).isEmpty))

/-- The `calculateScore` function of the search tool (src/tools/search.ts):
+100 for a phrase match plus 10 per phrase occurrence, 5 per occurrence of
each query word of length at least 2, and +50 when the phrase occurs in the
first 200 characters. -/
def calculateScore (content query : Str) : Nat :=
  let lowerContent := lowerL content
  let lowerQuery := lowerL query
  let words := splitRuns lowerQuery
  let phraseScore :=
    if containsL lowerQuery lowerContent then 100 + countOcc lowerQuery lowerContent * 10
    else 0
  let wordScore := words.foldl
    (fun acc w => if w.length < 2 then acc else acc + countOcc w lowerContent * 5) phraseScore
  if containsL lowerQuery (lowerContent.take 200) then wordScore + 50 else wordScore

/-- The scoring formula as the spec's scoring sentence describes it, with
the phrase-occurrence term counting every occurrence (the amended reading):
a sum of the phrase component, the per-word component and the lead bonus. -/
def searchScoreSpec (content query : Str) : Nat :=
  let lowerContent := lowerL content
  let lowerQuery := lowerL query
  (if containsL lowerQuery lowerContent then 100 + countOcc lowerQuery lowerContent * 10 else 0)
    + (splitRuns lowerQuery).foldl
        (fun acc w => if w.length < 2 then acc else acc + countOcc w lowerContent * 5) 0
    + (if containsL lowerQuery (lowerContent.take 200) then 50 else 0)

/-- The scoring formula exactly as claim C1 words it: +10 only per
additional phrase occurrence beyond the first. -/
def searchScoreClaimC1 (content query : Str) : Nat :=
  let lowerContent := lowerL content
  let lowerQuery := lowerL query
  (if containsL lowerQuery lowerContent then 100 + (countOcc lowerQuery lowerContent - 1) * 10
   else 0)
    + (splitRuns lowerQuery).foldl
        (fun acc w => if w.length < 2 then acc else acc + countOcc w lowerContent * 5) 0
    + (if containsL lowerQuery (lowerContent.take 200) then 50 else 0)

/-- The `extractSnippet` function of the search tool. -/
def extractSnippet (content query : Str) (contextChars : Nat) : Str :=
  match firstIdx (lowerL query) (lowerL content) with
  | none =>
    content.take (contextChars * 2) ++
      (if contextChars * 2 < content.length then strL "..." else [])
  | some matchIndex =>
    let start := matchIndex - contextChars
    let stop := min content.length (matchIndex + query.length + contextChars)
    let core := (content.take stop).drop start
    let core := (if 0 < start then strL "..." else []) ++ core ++
      (if stop < content.length then strL "..." else [])
    trimL (collapseNewlines core)

/-- A parsed absolute URL, as produced by JavaScript `new URL(...)`: the raw
string plus the components the scrape tool reads.  `search` includes its
leading question mark and `hash` its leading hash sign when nonempty, as in
the URL API. -/
structure Url where
  raw : Str
  host : Str
  pathname : Str
  search : Str
  hash : Str
deriving DecidableEq

/-- `urlToDomain`: the hostname with every dot replaced by a dash (the URL
parser has already lowercased the host). -/
def urlToDomain (u : Url) : Str :=
  u.host.map (fun c => if c = '.' then '-' else c)

/-- `pathname.replace(/^\//, "")`: strip one leading slash. -/
def stripOneLeadSlash : Str → Str
  | '/' :: rest => rest
  | p => p

/-- `p.replace(/\/$/, "")`: strip one trailing slash. -/
def stripTrailSlash (p : Str) : Str :=
  match p.reverse with
  | '/' :: rest => rest.reverse
  | _ => p

/-- Accumulator for `collapseUnderscores`. -/
def collapseUnderscoresAux : Bool → Str → Str
  | _, [] => []
  | afterU, c :: rest =>
    if c = '_' then
      if afterU then collapseUnderscoresAux true rest
      else '_' :: collapseUnderscoresAux true rest
    else c :: collapseUnderscoresAux false rest

/-- JavaScript `s.replace(/_+/g, "_")`. -/
def collapseUnderscores (s : Str) : Str := collapseUnderscoresAux false s

/-- `parsed.search.replace(/[?&=]/g, "_").replace(/_+/g, "_")`. -/
def searchToUnderscores (s : Str) : Str :=
  collapseUnderscores (s.map (fun c => if c = '?' || c = '&' || c = '=' then '_' else c))

/-- JavaScript `hash.replace("#", "")`: remove only the first occurrence. -/
def removeFirstHashChar : Str → Str
  | [] => []
  | c :: rest => if c = '#' then rest else c :: removeFirstHashChar rest

/-- The `.md` extension. -/
def mdExt : Str := strL ".md"

/-- `urlToFilename` of the scrape tool: path with slashes replaced by
underscores, query and fragment appended, truncated to 200 characters, plus
the `.md` extension.  The `catch` branch for an unparseable source URL is
not represented because URLs enter the model already parsed. -/
def urlToFilename (u : Url) : Str :=
  let relativePath := stripTrailSlash (stripOneLeadSlash u.pathname)
  if relativePath.isEmpty then strL "index.md"
  else
    let filename := relativePath.map (fun c => if c = '/' then '_' else c)
    let filename :=
      if u.search.isEmpty then filename
      else filename ++ '_' :: searchToUnderscores u.search
    let filename :=
      if u.hash.isEmpty then filename
      else filename ++ '_' :: removeFirstHashChar u.hash
    filename.take 200 ++ mdExt

/-- Fuelled decimal rendering helper for `natToChars`. -/
def natToCharsAux : Nat → Nat → List Char
  | 0, _ => []
  | fuel + 1, n =>
    if n < 10 then [Nat.digitChar n]
    else natToCharsAux fuel (n / 10) ++ [Nat.digitChar (n % 10)]

/-- Decimal rendering of a natural number, as a JavaScript template literal
renders an integer counter. -/
def natToChars (n : Nat) : List Char := natToCharsAux (n + 1) n

/-- `filename.slice(0, -".md".length)`: drop the last three characters. -/
def stripMdBase (f : Str) : Str := f.take (f.length - 3)

/-- One iteration of the collision loop: the next candidate name is rebuilt
from the current candidate, `base + "_" + counter + ".md"`. -/
def nextCand (f : Str) (counter : Nat) : Str :=
  stripMdBase f ++ '_' :: natToChars counter ++ mdExt

/-- Fuelled form of the collision `while` loop of `scrapeDocs`. -/
def resolveCollisionAux (used : List Str) : Nat → Str → Nat → Str
  | 0, f, _ => f
  | fuel + 1, f, counter =>
    if f ∈ used then resolveCollisionAux used fuel (nextCand f counter) (counter + 1)
    else f

/-- The collision loop with fuel `used.length + 1`: candidate lengths grow
strictly (each iteration removes 3 characters and appends at least 5), so a
set of `used.length` names cannot reject that many distinct candidates and
the unbounded JavaScript loop stops within this fuel. -/
def resolveCollision (used : List Str) (f : Str) : Str :=
  resolveCollisionAux used (used.length + 1) f 1

/-- The n-th name generated from base name `x ++ ".md"` by successive
collisions: each step strips `.md` from the previous name and appends
`_<n>.md`. -/
def gname (x : Str) : Nat → Str
  | 0 => x ++ mdExt
  | j + 1 => nextCand (gname x j) (j + 1)

/-- The first `n` generated names. -/
def gnames (x : Str) (n : Nat) : List Str := (List.range n).map (gname x)

/-- Page metadata as returned by the crawl provider. -/
structure PageMeta where
  sourceURL : Option Url
  title : Option Str
deriving DecidableEq

/-- One crawled page as returned by the crawl provider. -/
structure PageData where
  markdown : Option Str
  metadata : Option PageMeta
deriving DecidableEq

/-- A `ScrapedPage` entry of the domain metadata. -/
structure PageRef where
  path : Str
  sourceUrl : Str
  title : Str
  description : Str
  wordCount : Nat
deriving DecidableEq

/-- `ScrapeMetadata` (one `_metadata.json` per domain); `scrapedAt` and the
`scrapeOptions` echo are omitted (no claim depends on them). -/
structure ScrapeMeta where
  domain : Str
  sourceUrl : Str
  pageCount : Nat
  totalWordCount : Nat
  pages : List PageRef
  tags : List Str
  version : Nat
deriving DecidableEq

/-- One `sites` entry of the master index (`scrapedAt` omitted). -/
structure SiteEntry where
  pageCount : Nat
  sourceUrl : Str
  tags : List Str
  version : Nat
  totalWordCount : Nat
deriving DecidableEq

/-- The master index `index.json` (`lastUpdated` omitted); `sites` is an
association list with unique keys, modelling a JavaScript object. -/
structure DocsIndex where
  version : Nat
  sites : List (Str × SiteEntry)
deriving DecidableEq

/-- One domain directory: its markdown files (name to content) and its
optional readable metadata file. -/
structure DomainDir where
  files : List (Str × Str)
  metadata : Option ScrapeMeta
deriving DecidableEq

/-- The on-disk state under `~/scraped-docs`. -/
structure Store where
  dirs : List (Str × DomainDir)
  index : Option DocsIndex
deriving DecidableEq

/-- Lookup in an association list (first match). -/
def lookupA {β : Type} (k : Str) : List (Str × β) → Option β
  | [] => none
  | (k', v) :: rest => if k' = k then some v else lookupA k rest

/-- JavaScript object assignment `obj[k] = v`: replace the first entry with
key `k` in place, or append a fresh entry. -/
def setA {β : Type} (k : Str) (v : β) : List (Str × β) → List (Str × β)
  | [] => [(k, v)]
  | (k', v') :: rest => if k' = k then (k, v) :: rest else (k', v') :: setA k v rest

/-- Number of entries carrying key `k`. -/
def countKey {β : Type} (k : Str) (l : List (Str × β)) : Nat :=
  (l.filter (fun p => p.1 == k)).length

/-- State threaded through the per-page loop of `scrapeDocs`. -/
structure ScrapeLoopState where
  used : List Str
  files : List (Str × Str)
  pages : List PageRef
  totalWordCount : Nat
deriving DecidableEq

/-- `page.metadata?.sourceURL ?? url`. -/
def pageSource (p : PageData) (url : Url) : Url :=
  (p.metadata.bind PageMeta.sourceURL).getD url

/-- `page.metadata?.title ?? "Untitled"`. -/
def pageTitle (p : PageData) : Str :=
  (p.metadata.bind PageMeta.title).getD (strL "Untitled")

/-- The body of the per-page loop of `scrapeDocs`: resolve a collision-free
filename, write the page body, record the page reference. -/
def scrapeStep (url : Url) (s : ScrapeLoopState) (p : PageData) : ScrapeLoopState :=
  let sourceUrl := pageSource p url
  let markdown := p.markdown.getD []
  let filename := resolveCollision s.used (urlToFilename sourceUrl)
  let wc := countWords markdown
  { used := s.used ++ [filename]
    files := setA filename markdown s.files
    pages := s.pages ++ [⟨filename, sourceUrl.raw, pageTitle p, extractDescription markdown 200, wc⟩]
    totalWordCount := s.totalWordCount + wc }

/-- The per-page loop of `scrapeDocs`. -/
def scrapeLoop (url : Url) : List PageData → ScrapeLoopState → ScrapeLoopState
  | [], s => s
  | p :: rest, s => scrapeLoop url rest (scrapeStep url s p)

/-- A directory that does not exist yet (`fs.mkdir` recursive). -/
def emptyDir : DomainDir := ⟨[], none⟩

/-- The storage-affecting core of `scrapeDocs` (crawl already done): read
the previous version, run the page loop, overwrite the domain metadata with
`version = previous + 1`, and update the master index entry for the domain. -/
def scrapeStore (st : Store) (url : Url) (pages : List PageData) (tags : List Str) :
    Store × ScrapeMeta :=
  let domain := urlToDomain url
  let dir0 := (lookupA domain st.dirs).getD emptyDir
  let existingVersion := match dir0.metadata with
    | some m => m.version
    | none => 0
  let s := scrapeLoop url pages ⟨[], dir0.files, [], 0⟩
  let meta : ScrapeMeta :=
    { domain := domain, sourceUrl := url.raw, pageCount := pages.length
      totalWordCount := s.totalWordCount, pages := s.pages, tags := tags
      version := existingVersion + 1 }
  let dir1 : DomainDir := { files := s.files, metadata := some meta }
  let idx0 := st.index.getD { version := 1, sites := [] }
  let entry : SiteEntry :=
    { pageCount := pages.length, sourceUrl := url.raw, tags := tags
      version := meta.version, totalWordCount := s.totalWordCount }
  ({ dirs := setA domain dir1 st.dirs
     index := some { version := idx0.version, sites := setA domain entry idx0.sites } }, meta)

/-- Errors of the `get_doc` tool. -/
inductive GetDocErr where
  | domainNotFound
  | documentNotFound
deriving DecidableEq

/-- One `DocContent` record returned by `getDoc`. -/
structure DocContent where
  path : Str
  content : Str
deriving DecidableEq

/-- JavaScript `t.endsWith(suffix)`. -/
def endsWith (suffix t : Str) : Bool := isPref suffix.reverse t.reverse

/-- The listing line `getDoc` builds for a page when metadata is readable. -/
def docListing (p : PageRef) : Str :=
  strL "Title: " ++ p.title ++ strL "\nSource: " ++ p.sourceUrl

/-- The `getDoc` tool: check the domain directory exists, then either fetch
one document (appending `.md` when absent) or list the pages from metadata,
falling back to a bare directory listing. -/
def getDoc (st : Store) (domain : Str) (docPath : Option Str) :
    Except GetDocErr (List DocContent) :=
  match lookupA domain st.dirs with
  | none => .error .domainNotFound
  | some dir =>
    match docPath with
    | some p =>
      let fileName := if endsWith mdExt p then p else p ++ mdExt
      (match lookupA fileName dir.files with
       | some content => .ok [⟨p, content⟩]
       | none => .error .documentNotFound)
    | none =>
      match dir.metadata with
      | some meta => .ok (meta.pages.map (fun pg => ⟨pg.path, docListing pg⟩))
      | none =>
        .ok (((dir.files.map Prod.fst).filter (fun f => endsWith mdExt f)).map
          (fun f => ⟨f, strL "(content available - specify path to retrieve)"⟩))

/-- Options of the `search_docs` tool (defaults `limit = 20`,
`caseSensitive = false` are supplied by callers). -/
structure SearchOptions where
  limit : Nat
  domain : Option Str
  tags : Option (List Str)
  caseSensitive : Bool
deriving DecidableEq

/-- One search hit (ephemeral, not persisted). -/
structure SearchResult where
  domain : Str
  path : Str
  title : Str
  snippet : Str
  score : Nat
  sourceUrl : Str
deriving DecidableEq

/-- The two error exits of `searchDocs`. -/
inductive SearchErr where
  | emptyQuery
  | noCorpus
deriving DecidableEq

/-- JavaScript `file.replace(".md", "")`: remove only the first occurrence. -/
def removeFirstMd (t : Str) : Str :=
  match firstIdx mdExt t with
  | none => t
  | some i => t.take i ++ t.drop (i + 3)

/-- The fallback title: the filename without `.md` and with underscores
replaced by spaces. -/
def defaultTitle (file : Str) : Str :=
  (removeFirstMd file).map (fun c => if c = '_' then ' ' else c)

/-- `caseSensitive ? t : t.toLowerCase()`, the fold applied to both the
query and the content before the containment test. -/
def csFold (caseSensitive : Bool) (t : Str) : Str :=
  if caseSensitive then t else lowerL t

/-- The per-file body of `searchDocs`: run the containment test (folded to
lower case unless `caseSensitive`) and build a scored result on a match. -/
def searchFile (query : Str) (caseSensitive : Bool) (domain : Str)
    (meta : Option ScrapeMeta) (file : Str × Str) : Option SearchResult :=
  let content := file.2
  if containsL (csFold caseSensitive query) (csFold caseSensitive content) then
    let pageInfo := ((meta.map ScrapeMeta.pages).getD []).find? (fun pg => pg.path == file.1)
    some { domain := domain, path := file.1
           title := (pageInfo.map PageRef.title).getD (defaultTitle file.1)
           snippet := extractSnippet content query 150
           score := calculateScore content query
           sourceUrl := (pageInfo.map PageRef.sourceUrl).getD [] }
  else none

/-- Search every `.md` file of one domain directory; a missing directory
contributes nothing (`readdir` failure continues the loop). -/
def searchDomain (st : Store) (query : Str) (caseSensitive : Bool) (domain : Str) :
    List SearchResult :=
  match lookupA domain st.dirs with
  | none => []
  | some dir =>
    (dir.files.filter (fun f => endsWith mdExt f.1)).filterMap
      (searchFile query caseSensitive domain dir.metadata)

/-- Stable insertion step for the descending sort by score: an element moves
past only strictly higher scores, so ties keep scan order. -/
def insertByScore (r : SearchResult) : List SearchResult → List SearchResult
  | [] => [r]
  | x :: xs => if r.score < x.score then x :: insertByScore r xs else r :: x :: xs

/-- `results.sort((a, b) => b.score - a.score)` (stable). -/
def sortByScore : List SearchResult → List SearchResult
  | [] => []
  | x :: xs => insertByScore x (sortByScore xs)

/-- The `searchDocs` tool: reject a blank query, require an index, filter
candidate domains by the optional domain substring and tag filters, score
the matching files, sort descending and truncate to the limit. -/
def searchDocs (query : Str) (opts : SearchOptions) (st : Store) :
    Except SearchErr (List SearchResult) :=
  if (trimL query).isEmpty then .error .emptyQuery
  else
    match st.index with
    | none => .error .noCorpus
    | some idx =>
      let domains := idx.sites.map Prod.fst
      let domains := match opts.domain with
        | some fd => domains.filter (fun d => d == fd || containsL fd d)
        | none => domains
      let domains := match opts.tags with
        | some ft =>
          if ft.isEmpty then domains
          else domains.filter (fun d =>
            (((lookupA d idx.sites).map SiteEntry.tags).getD []).any (fun t => ft.contains t))
        | none => domains
      let results := (domains.map (searchDomain st query opts.caseSensitive)).flatten
      .ok ((sortByScore results).take opts.limit)

/-- The `ScraperErrorCode` union of types.ts. -/
inductive ErrCode where
  | crawlFailed
  | crawlTimeout
  | rateLimited
  | invalidUrl
  | domainNotFound
  | docNotFound
  | githubError
  | filesystemError
  | invalidOptions
deriving DecidableEq

/-- A `ScraperError`: message, code, and the optional `jobId` detail. -/
structure ScrapErr where
  message : String
  code : ErrCode
  jobId : Option String
deriving DecidableEq

/-- An error thrown inside a request attempt: either a classified
`ScraperError` or a generic `Error` (network failure, malformed response). -/
inductive ReqErr where
  | scraper (e : ScrapErr)
  | generic (message : String)
deriving DecidableEq

/-- The non-retryable test of `retryRequest`: a `ScraperError` whose code is
`INVALID_URL`, `INVALID_OPTIONS` or `RATE_LIMITED`. -/
def nonRetryable : ReqErr → Bool
  | .scraper e =>
    decide (e.code = .invalidUrl ∨ e.code = .invalidOptions ∨ e.code = .rateLimited)
  | .generic _ => false

/-- The retry configuration; delays are rationals (milliseconds, possibly
fractional because of jitter). -/
structure RetryOptions where
  maxRetries : Nat
  baseDelayMs : ℚ
  maxDelayMs : ℚ
deriving DecidableEq

/-- `DEFAULT_RETRY_OPTIONS` of the Firecrawl service. -/
def defaultRetryOptions : RetryOptions := ⟨3, 1000, 30000⟩

/-- Observable outcome of a `retryRequest` run: the value or error
delivered, the backoff sleeps performed in order, and how many times the
wrapped operation was invoked. -/
structure RetryOutcome (α : Type) where
  result : Except ReqErr α
  sleeps : List ℚ
  calls : Nat

/-- The delay computed for a failed attempt:
`Math.min(base * 2 ** attempt + Math.random() * 1000, maxDelayMs)` — the
jitter is added before the cap is applied. -/
def backoffDelay (o : RetryOptions) (jitter : Nat → ℚ) (attempt : Nat) : ℚ :=
  min (o.baseDelayMs * 2 ^ attempt + jitter attempt) o.maxDelayMs

/-- The fallback error thrown when the loop never ran. -/
def retryFallback (o : RetryOptions) : ReqErr :=
  .scraper ⟨"Failed after " ++ toString o.maxRetries ++ " retries", .crawlFailed, none⟩

/-- The attempt loop of `retryRequest`: `fn` gives the outcome of each
attempt by index and `jitter` the random component of each delay. -/
def retryAux {α : Type} (o : RetryOptions) (fn : Nat → Except ReqErr α) (jitter : Nat → ℚ) :
    Nat → Nat → Option ReqErr → RetryOutcome α
  | _, 0, lastError => ⟨.error (lastError.getD (retryFallback o)), [], 0⟩
  | attempt, rem + 1, _ =>
    match fn attempt with
    | .ok v => ⟨.ok v, [], 1⟩
    | .error e =>
      if nonRetryable e then ⟨.error e, [], 1⟩
      else
        let r := retryAux o fn jitter (attempt + 1) rem (some e)
        ⟨r.result, backoffDelay o jitter attempt :: r.sleeps, r.calls + 1⟩

/-- The `retryRequest` wrapper of the Firecrawl service. -/
def retryRequest {α : Type} (o : RetryOptions) (fn : Nat → Except ReqErr α)
    (jitter : Nat → ℚ) : RetryOutcome α :=
  retryAux o fn jitter 0 o.maxRetries none

/-- A raw `CrawlStatusResponse` from the provider. -/
structure PollResponse where
  status : String
  completed : Option Nat
  total : Option Nat
  data : Option (List PageData)
  error : Option String
deriving DecidableEq

/-- The five canonical crawl states. -/
inductive CanonStatus where
  | pending
  | crawling
  | completed
  | failed
  | cancelled
deriving DecidableEq

/-- `mapCrawlStatus` of the Firecrawl service. -/
def mapCrawlStatus (s : String) : CanonStatus :=
  if s = "completed" then .completed
  else if s = "failed" then .failed
  else if s = "cancelled" then .cancelled
  else if s = "scraping" then .crawling
  else if s = "crawling" then .crawling
  else .pending

/-- The argument passed to the progress observer on each poll. -/
structure CrawlProgress where
  status : CanonStatus
  completed : Nat
  total : Nat
deriving DecidableEq

/-- Does a raw status name a terminal state? -/
def terminalRaw (r : PollResponse) : Bool :=
  r.status == "completed" || r.status == "failed" || r.status == "cancelled"

/-- The polling loop of `pollForCompletion`: `statuses i` is the response of
the i-th poll (each poll's own HTTP retry wrapper assumed successful, which
is the situation the claims describe).  Returns the delivered outcome and
the progress notifications, one per poll performed. -/
def pollAux (statuses : Nat → PollResponse) (jobId : String) :
    Nat → Nat → Except ScrapErr (List PageData) × List CrawlProgress
  | 0, _ => (.error ⟨"Crawl timed out after 10 minutes", .crawlTimeout, some jobId⟩, [])
  | rem + 1, i =>
    let r := statuses i
    let prog : CrawlProgress := ⟨mapCrawlStatus r.status, r.completed.getD 0, r.total.getD 0⟩
    if r.status = "completed" then (.ok (r.data.getD []), [prog])
    else if r.status = "failed" then
      (.error ⟨r.error.getD "Crawl job failed", .crawlFailed, some jobId⟩, [prog])
    else if r.status = "cancelled" then
      (.error ⟨"Crawl job was cancelled", .crawlFailed, some jobId⟩, [prog])
    else
      let rest := pollAux statuses jobId rem (i + 1)
      (rest.1, prog :: rest.2)

/-- `pollForCompletion`: at most 120 polls at 5000 ms intervals. -/
def pollForCompletion (statuses : Nat → PollResponse) (jobId : String) :
    Except ScrapErr (List PageData) × List CrawlProgress :=
  pollAux statuses jobId 120 0

/-- The crawl root URL used in concrete instances: host `e`, path `/x`, so
every page whose metadata has no source URL resolves to `x.md`. -/
def c2Url : Url := ⟨strL "http://e/x", strL "e", strL "/x", [], []⟩

/-- A provider page with no markdown and no metadata. -/
def c2Page : PageData := ⟨none, none⟩

/-- Three pairwise distinct pages whose source URLs
(`http://e/x`, `http://e/x/`, `http://f/x`) all resolve to `x.md`. -/
def c2PageA : PageData := ⟨none, some ⟨some c2Url, none⟩⟩

/-- The second of the three colliding pages. -/
def c2PageB : PageData :=
  ⟨none, some ⟨some ⟨strL "http://e/x/", strL "e", strL "/x/", [], []⟩, none⟩⟩

/-- The third of the three colliding pages. -/
def c2PageC : PageData :=
  ⟨none, some ⟨some ⟨strL "http://f/x", strL "f", strL "/x", [], []⟩, none⟩⟩

/-- A one-domain store used to instantiate the search theorems: domain `d`
holds one file `a.md` with content `a` and no readable metadata. -/
def c10Store : Store :=
  ⟨[(strL "d", ⟨[(strL "a.md", strL "a")], none⟩)], some ⟨1, [(strL "d", ⟨1, [], [], 1, 1⟩)]⟩⟩

/-- Default search options: limit 20, no filters, case-insensitive. -/
def c10Opts : SearchOptions := ⟨20, none, none, false⟩

/-- The single hit `searchDocs "a"` produces over `c10Store`. -/
def c10Result : SearchResult := ⟨strL "d", strL "a.md", strL "a", strL "a", 160, []⟩

/-- Retry options with a cap low enough to bind on the second backoff. -/
def c3Opts : RetryOptions := ⟨3, 1000, 1500⟩

/-- A constant jitter of 600 ms. -/
def c3Jitter : Nat → ℚ := fun _ => 600

/-- An operation that fails retryably twice, then succeeds with 7. -/
def c3Fn : Nat → Except ReqErr Nat :=
  fun n => if n < 2 then .error (.generic "network failure") else .ok 7

/-- A constant jitter of 500 ms. -/
def c3JitterW : Nat → ℚ := fun _ => 500

/-- A rate-limit error as `parseErrorResponse` classifies a 429. -/
def c5Err : ReqErr :=
  .scraper ⟨"Rate limited by Firecrawl API. Please wait and try again.", .rateLimited, none⟩

/-- An operation that is rate limited on every attempt. -/
def c5Fn : Nat → Except ReqErr Nat := fun _ => .error c5Err

/-- A poll response that never progresses. -/
def pendingResp : PollResponse := ⟨"pending", none, none, none, none⟩

/-- A completed poll response carrying one page. -/
def completedResp : PollResponse := ⟨"completed", some 1, some 1, some [c2Page], none⟩

theorem score_foldl_shift (lc : Str) (ws : List Str) : ∀ (a b : Nat),
    List.foldl (fun acc w => if w.length < 2 then acc else acc + countOcc w lc * 5) (a + b) ws
      = a + List.foldl (fun acc w => if w.length < 2 then acc else acc + countOcc w lc * 5) b ws := by
  induction ws with
  | nil => intro a b; simp
  | cons w rest ih =>
    intro a b
    by_cases h : w.length < 2
    · simpa [h] using ih a b
    · simpa [h, Nat.add_assoc] using ih a (b + countOcc w lc * 5)

theorem score_foldl_from_zero (lc : Str) (ws : List Str) (a : Nat) :
    List.foldl (fun acc w => if w.length < 2 then acc else acc + countOcc w lc * 5) a ws
      = a + List.foldl (fun acc w => if w.length < 2 then acc else acc + countOcc w lc * 5) 0 ws := by
  simpa using score_foldl_shift lc ws a 0

/-- C4 (counterexample): the claim says `wordCount` of the markdown string
`"# Title\n\nHello **world**."` equals 2; the code's pipeline yields 3. -/
theorem countWords_example_ne_two :
    countWords (strL "# Title\n\nHello **world**.") ≠ 2 := by
  decide

/-- C4 (amended): `wordCount` of `"# Title\n\nHello **world**."` equals 3 —
the markup characters are stripped, but the heading word `Title` remains and
is counted along with `Hello` and `world.`. -/
theorem countWords_example_eq_three :
    countWords (strL "# Title\n\nHello **world**.") = 3 := by
  decide

/-- C1 (counterexample): for the matching page `"webhook"` and the non-blank
query `"webhook"`, the code's score (165) differs from the claim's formula
(155), because the code awards 10 points for every phrase occurrence
including the first, not only for occurrences beyond the first. -/
theorem searchScore_claim_counterexample :
    containsL (lowerL (strL "webhook")) (lowerL (strL "webhook")) = true ∧
      calculateScore (strL "webhook") (strL "webhook") = 165 ∧
      searchScoreClaimC1 (strL "webhook") (strL "webhook") = 155 ∧
      calculateScore (strL "webhook") (strL "webhook")
        ≠ searchScoreClaimC1 (strL "webhook") (strL "webhook") := by
  refine ⟨by decide, by decide, by decide, by decide⟩

/-- C1 (amended): for every content and query, the relevance score equals
+100 if the full query phrase occurs at all, plus +10 per occurrence of the
exact phrase (counting every occurrence, including the first), plus +5 per
occurrence of each query word of length at least 2, plus +50 if the phrase
occurs within the first 200 characters. -/
theorem calculateScore_eq_spec_formula (content query : Str) :
    calculateScore content query = searchScoreSpec content query := by
  unfold calculateScore searchScoreSpec
  dsimp only
  rw [score_foldl_from_zero (lowerL content) (splitRuns (lowerL query))
    (if containsL (lowerL query) (lowerL content) = true
      then 100 + countOcc (lowerL query) (lowerL content) * 10 else 0)]
  by_cases h2 : containsL (lowerL query) ((lowerL content).take 200) = true <;>
    simp [h2] <;> omega

/-- Witness for C1's amended theorem at a concrete matching page. -/
theorem calculateScore_eq_spec_formula_witness :
    calculateScore (strL "webhook webhook") (strL "webhook")
      = searchScoreSpec (strL "webhook webhook") (strL "webhook") :=
  calculateScore_eq_spec_formula (strL "webhook webhook") (strL "webhook")

theorem isPref_map (f : Char → Char) : ∀ (p t : Str), isPref p t = true →
    isPref (p.map f) (t.map f) = true := by
  intro p
  induction p with
  | nil => intro t _; cases t <;> rfl
  | cons c cs ih =>
    intro t h
    cases t with
    | nil => simp [isPref] at h
    | cons d ds =>
      simp only [isPref, Bool.and_eq_true, decide_eq_true_eq] at h
      simp only [List.map_cons, isPref, Bool.and_eq_true, decide_eq_true_eq]
      exact ⟨by rw [h.1], ih ds h.2⟩

theorem containsL_map (f : Char → Char) (p : Str) : ∀ (t : Str), containsL p t = true →
    containsL (p.map f) (t.map f) = true := by
  intro t
  induction t with
  | nil =>
    intro h
    cases p with
    | nil => rfl
    | cons c cs => simp [containsL, List.isEmpty] at h
  | cons c cs ih =>
    intro h
    simp only [containsL, Bool.or_eq_true] at h
    simp only [List.map_cons, containsL, Bool.or_eq_true]
    rcases h with h | h
    · exact Or.inl (by simpa using isPref_map f p (c :: cs) h)
    · exact Or.inr (ih h)

theorem score_foldl_le (lc : Str) (ws : List Str) : ∀ a : Nat,
    a ≤ List.foldl (fun acc w => if w.length < 2 then acc else acc + countOcc w lc * 5) a ws := by
  induction ws with
  | nil => intro a; simp
  | cons w rest ih =>
    intro a
    by_cases h : w.length < 2
    · simpa [h] using ih a
    · simp only [List.foldl_cons, if_neg h]
      exact le_trans (Nat.le_add_right a _) (ih _)

theorem calculateScore_ge_100 (content query : Str)
    (h : containsL (lowerL query) (lowerL content) = true) :
    100 ≤ calculateScore content query := by
  unfold calculateScore
  dsimp only
  rw [if_pos h]
  have h2 := score_foldl_le (lowerL content) (splitRuns (lowerL query))
    (100 + countOcc (lowerL query) (lowerL content) * 10)
  by_cases h3 : containsL (lowerL query) ((lowerL content).take 200) = true
  · rw [if_pos h3]; omega
  · rw [if_neg h3]; omega

theorem csFold_contains (cs : Bool) (q c : Str)
    (h : containsL (csFold cs q) (csFold cs c) = true) :
    containsL (lowerL q) (lowerL c) = true := by
  cases cs with
  | false => simpa [csFold] using h
  | true => simpa [lowerL] using containsL_map Char.toLower q c (by simpa [csFold] using h)

theorem searchFile_score (query : Str) (cs : Bool) (domain : Str) (meta : Option ScrapeMeta)
    (file : Str × Str) (r : SearchResult)
    (h : searchFile query cs domain meta file = some r) :
    100 ≤ r.score := by
  unfold searchFile at h
  dsimp only at h
  split at h
  case isTrue hc =>
    cases h
    exact calculateScore_ge_100 file.2 query (csFold_contains cs query file.2 hc)
  case isFalse => exact absurd h (by simp)

theorem searchDomain_score (st : Store) (query : Str) (cs : Bool) (domain : Str)
    (r : SearchResult) (h : r ∈ searchDomain st query cs domain) :
    100 ≤ r.score := by
  unfold searchDomain at h
  cases hl : lookupA domain st.dirs with
  | none => rw [hl] at h; simp at h
  | some dir =>
    rw [hl] at h
    rw [List.mem_filterMap] at h
    obtain ⟨f, _, hf⟩ := h
    exact searchFile_score query cs domain dir.metadata f r hf

theorem mem_insertByScore (r x : SearchResult) : ∀ (l : List SearchResult),
    r ∈ insertByScore x l → r = x ∨ r ∈ l := by
  intro l
  induction l with
  | nil => intro h; simpa [insertByScore] using h
  | cons y ys ih =>
    intro h
    unfold insertByScore at h
    split at h
    · rcases List.mem_cons.mp h with h | h
      · exact Or.inr (List.mem_cons.mpr (Or.inl h))
      · rcases ih h with h | h
        · exact Or.inl h
        · exact Or.inr (List.mem_cons.mpr (Or.inr h))
    · rcases List.mem_cons.mp h with h | h
      · exact Or.inl h
      · exact Or.inr h

theorem mem_sortByScore (r : SearchResult) : ∀ (l : List SearchResult),
    r ∈ sortByScore l → r ∈ l := by
  intro l
  induction l with
  | nil => intro h; simpa [sortByScore] using h
  | cons x xs ih =>
    intro h
    unfold sortByScore at h
    rcases mem_insertByScore r x (sortByScore xs) h with h | h
    · exact List.mem_cons.mpr (Or.inl h)
    · exact List.mem_cons.mpr (Or.inr (ih h))

/-- C10: every `SearchResult` returned by `searchDocs` has score at least
100 — a page passing the candidate containment test also passes the
lowercased containment check inside `calculateScore`, so the +100 phrase
bonus always applies. -/
theorem searchResult_score_ge_100 (query : Str) (opts : SearchOptions) (st : Store)
    (res : List SearchResult) (h : searchDocs query opts st = .ok res) :
    ∀ r ∈ res, 100 ≤ r.score := by
  intro r hr
  unfold searchDocs at h
  split at h
  · exact absurd h (by simp)
  · cases hidx : st.index with
    | none => rw [hidx] at h; exact absurd h (by simp)
    | some idx =>
      rw [hidx] at h
      dsimp only at h
      rw [Except.ok.injEq] at h
      subst h
      have hr1 : r ∈ sortByScore ((match opts.tags with
        | some ft =>
          if ft.isEmpty then (match opts.domain with
            | some fd => (idx.sites.map Prod.fst).filter (fun d => d == fd || containsL fd d)
            | none => idx.sites.map Prod.fst)
          else (match opts.domain with
            | some fd => (idx.sites.map Prod.fst).filter (fun d => d == fd || containsL fd d)
            | none => idx.sites.map Prod.fst).filter (fun d =>
              (((lookupA d idx.sites).map SiteEntry.tags).getD []).any (fun t => ft.contains t))
        | none => (match opts.domain with
            | some fd => (idx.sites.map Prod.fst).filter (fun d => d == fd || containsL fd d)
            | none => idx.sites.map Prod.fst)).map
          (searchDomain st query opts.caseSensitive)).flatten := List.take_subset _ _ hr
      have hr2 := mem_sortByScore r _ hr1
      rw [List.mem_flatten] at hr2
      obtain ⟨l, hl, hrl⟩ := hr2
      rw [List.mem_map] at hl
      obtain ⟨d, _, hd⟩ := hl
      subst hd
      exact searchDomain_score st query opts.caseSensitive d r hrl

/-- Witness for C10: a concrete one-file corpus where the query matches,
instantiating the theorem's hypotheses. -/
theorem searchResult_score_ge_100_witness :
    searchDocs (strL "a") c10Opts c10Store = .ok [c10Result] ∧ 100 ≤ c10Result.score :=
  ⟨by rfl, searchResult_score_ge_100 (strL "a") c10Opts c10Store [c10Result] (by rfl)
    c10Result (List.mem_singleton.mpr rfl)⟩

theorem natToChars_length (n : Nat) : 1 ≤ (natToChars n).length := by
  unfold natToChars natToCharsAux
  by_cases h : n < 10 <;> simp [h]

theorem nextCand_length (f : Str) (n : Nat) :
    (nextCand f n).length = f.length - 3 + (natToChars n).length + 4 := by
  have h3 : mdExt.length = 3 := rfl
  simp [nextCand, stripMdBase, h3]
  omega

theorem gname_succ (x : Str) (j : Nat) : gname x (j + 1) = nextCand (gname x j) (j + 1) := rfl

theorem gname_length_ge (x : Str) (j : Nat) : 3 ≤ (gname x j).length := by
  cases j with
  | zero =>
    have h3 : mdExt.length = 3 := rfl
    simp [gname, h3]
  | succ j => rw [gname_succ, nextCand_length]; omega

theorem gname_length_lt (x : Str) (j : Nat) : (gname x j).length < (gname x (j + 1)).length := by
  have h := gname_length_ge x j
  have hn := natToChars_length (j + 1)
  rw [gname_succ, nextCand_length]
  omega

theorem gname_length_mono (x : Str) : ∀ {i j : Nat}, i < j →
    (gname x i).length < (gname x j).length := by
  intro i j
  induction j with
  | zero => omega
  | succ j ih =>
    intro h
    rcases Nat.lt_succ_iff_lt_or_eq.mp h with h' | h'
    · exact lt_trans (ih h') (gname_length_lt x j)
    · subst h'; exact gname_length_lt x i

theorem gname_ne (x : Str) {i j : Nat} (h : i < j) : gname x i ≠ gname x j := by
  intro he
  have hlen := gname_length_mono x h
  rw [he] at hlen
  exact lt_irrefl _ hlen

theorem gname_mem_iff (x : Str) {i n : Nat} : gname x i ∈ gnames x n ↔ i < n := by
  unfold gnames
  constructor
  · intro h
    rw [List.mem_map] at h
    obtain ⟨m, hm, he⟩ := h
    rw [List.mem_range] at hm
    by_contra hin
    push_neg at hin
    exact gname_ne x (lt_of_lt_of_le hm hin) he
  · intro h
    exact List.mem_map.mpr ⟨i, List.mem_range.mpr h, rfl⟩

theorem gnames_succ (x : Str) (n : Nat) : gnames x (n + 1) = gnames x n ++ [gname x n] := by
  unfold gnames
  rw [List.range_succ, List.map_append]
  rfl

theorem gnames_length (x : Str) (n : Nat) : (gnames x n).length = n := by
  simp [gnames]

theorem gnames_nodup (x : Str) (n : Nat) : (gnames x n).Nodup := by
  induction n with
  | zero => simp [gnames]
  | succ n ih =>
    rw [gnames_succ]
    refine (List.nodup_append).mpr ⟨ih, List.nodup_singleton _, ?_⟩
    intro a ha hb
    rw [List.mem_singleton] at hb
    subst hb
    rw [gname_mem_iff] at ha
    omega

theorem resolveAux_walk (x : Str) (j : Nat) : ∀ (fuel i : Nat), i ≤ j → j - i < fuel →
    resolveCollisionAux (gnames x j) fuel (gname x i) (i + 1) = gname x j := by
  intro fuel
  induction fuel with
  | zero => intro i _ h2; omega
  | succ fuel ih =>
    intro i h1 h2
    unfold resolveCollisionAux
    by_cases hmem : gname x i ∈ gnames x j
    · rw [if_pos hmem]
      have hij : i < j := (gname_mem_iff x).mp hmem
      rw [← gname_succ]
      exact ih (i + 1) hij (by omega)
    · rw [if_neg hmem]
      have hij : ¬ i < j := fun hlt => hmem ((gname_mem_iff x).mpr hlt)
      have : i = j := by omega
      rw [this]

theorem scrapeStep_used (url : Url) (s : ScrapeLoopState) (p : PageData) :
    (scrapeStep url s p).used
      = s.used ++ [resolveCollision s.used (urlToFilename (pageSource p url))] := rfl

theorem scrapeStep_pages (url : Url) (s : ScrapeLoopState) (p : PageData) :
    (scrapeStep url s p).pages
      = s.pages ++ [⟨resolveCollision s.used (urlToFilename (pageSource p url)),
          (pageSource p url).raw, pageTitle p, extractDescription (p.markdown.getD []) 200,
          countWords (p.markdown.getD [])⟩] := rfl

theorem scrapeLoop_cons (url : Url) (p : PageData) (rest : List PageData) (s : ScrapeLoopState) :
    scrapeLoop url (p :: rest) s = scrapeLoop url rest (scrapeStep url s p) := rfl

theorem resolveCollision_gnames (x : Str) (j : Nat) :
    resolveCollision (gnames x j) (x ++ mdExt) = gname x j := by
  unfold resolveCollision
  rw [gnames_length]
  exact resolveAux_walk x j (j + 1) 0 (Nat.zero_le j) (by omega)

theorem scrapeLoop_collision (url : Url) (x : Str) :
    ∀ (ps : List PageData) (j : Nat) (s : ScrapeLoopState),
    (∀ p ∈ ps, urlToFilename (pageSource p url) = x ++ mdExt) →
    s.used = gnames x j →
    List.map PageRef.path s.pages = gnames x j →
    (scrapeLoop url ps s).used = gnames x (j + ps.length) ∧
      List.map PageRef.path (scrapeLoop url ps s).pages = gnames x (j + ps.length) := by
  intro ps
  induction ps with
  | nil =>
    intro j s _ h1 h2
    simp only [scrapeLoop, List.length_nil, Nat.add_zero]
    exact ⟨h1, h2⟩
  | cons p rest ih =>
    intro j s hres h1 h2
    have hraw : urlToFilename (pageSource p url) = x ++ mdExt := hres p (List.mem_cons_self p rest)
    rw [scrapeLoop_cons]
    have hu : (scrapeStep url s p).used = gnames x (j + 1) := by
      rw [scrapeStep_used, h1, hraw, resolveCollision_gnames, ← gnames_succ]
    have hp : List.map PageRef.path (scrapeStep url s p).pages = gnames x (j + 1) := by
      rw [scrapeStep_pages, List.map_append, h2, h1, hraw, resolveCollision_gnames, gnames_succ]
      rfl
    have hrest : ∀ q ∈ rest, urlToFilename (pageSource q url) = x ++ mdExt :=
      fun q hq => hres q (List.mem_cons_of_mem p hq)
    have := ih (j + 1) (scrapeStep url s p) hrest hu hp
    have harith : j + 1 + rest.length = j + (p :: rest).length := by
      simp [List.length_cons]
      omega
    rw [harith] at this
    exact this

theorem scrapeStore_pages (st : Store) (url : Url) (ps : List PageData) (tags : List Str) :
    (scrapeStore st url ps tags).2.pages
      = (scrapeLoop url ps
          ⟨[], ((lookupA (urlToDomain url) st.dirs).getD emptyDir).files, [], 0⟩).pages := rfl

/-- C2 (counterexample): three pages resolving to `x.md` within one batch
are stored as `x.md`, `x_1.md`, `x_1_2.md` — not `x.md`, `x_1.md`, `x_2.md`
as the claim states, because the loop re-derives the base name from the
current candidate on every iteration. -/
theorem collision_names_counterexample :
    (c2PageA ≠ c2PageB ∧ c2PageA ≠ c2PageC ∧ c2PageB ≠ c2PageC) ∧
      (∀ p ∈ ([c2PageA, c2PageB, c2PageC] : List PageData),
        urlToFilename (pageSource p c2Url) = strL "x" ++ mdExt) ∧
      List.map PageRef.path (scrapeStore ⟨[], none⟩ c2Url [c2PageA, c2PageB, c2PageC] []).2.pages
        = [strL "x.md", strL "x_1.md", strL "x_1_2.md"] ∧
      List.map PageRef.path (scrapeStore ⟨[], none⟩ c2Url [c2PageA, c2PageB, c2PageC] []).2.pages
        ≠ [strL "x.md", strL "x_1.md", strL "x_2.md"] := by
  refine ⟨by decide, by decide, by decide, by decide⟩

/-- C2 (amended): within one crawl batch, a colliding name is rebuilt each
iteration from the current candidate (strip `.md`, append `_<n>.md`, with n
incrementing), so a batch of k+1 pages that all resolve to the base name
`x.md` is stored as the nested sequence `x.md`, `x_1.md`, `x_1_2.md`, …,
`x_1_2_..._k.md`, which is pairwise distinct. -/
theorem collision_names_pattern (st : Store) (url : Url) (x : Str) (tags : List Str)
    (ps : List PageData) (k : Nat) (hlen : ps.length = k + 1)
    (hres : ∀ p ∈ ps, urlToFilename (pageSource p url) = x ++ mdExt) :
    List.map PageRef.path (scrapeStore st url ps tags).2.pages = gnames x (k + 1) ∧
      (List.map PageRef.path (scrapeStore st url ps tags).2.pages).Nodup := by
  have h := scrapeLoop_collision url x ps 0
    ⟨[], ((lookupA (urlToDomain url) st.dirs).getD emptyDir).files, [], 0⟩
    hres (by simp [gnames]) (by simp [gnames])
  rw [scrapeStore_pages]
  rw [h.2, Nat.zero_add, hlen]
  exact ⟨rfl, gnames_nodup x (k + 1)⟩

/-- Witness for C2's amended theorem: the concrete three-page batch. -/
theorem collision_names_pattern_witness :
    ([c2PageA, c2PageB, c2PageC] : List PageData).length = 2 + 1 ∧
      (∀ p ∈ ([c2PageA, c2PageB, c2PageC] : List PageData),
        urlToFilename (pageSource p c2Url) = strL "x" ++ mdExt) ∧
      (List.map PageRef.path
          (scrapeStore ⟨[], none⟩ c2Url [c2PageA, c2PageB, c2PageC] []).2.pages
          = gnames (strL "x") (2 + 1) ∧
        (List.map PageRef.path
          (scrapeStore ⟨[], none⟩ c2Url [c2PageA, c2PageB, c2PageC] []).2.pages).Nodup) :=
  ⟨by decide, by decide,
    collision_names_pattern ⟨[], none⟩ c2Url (strL "x") [] [c2PageA, c2PageB, c2PageC] 2
      (by decide) (by decide)⟩

theorem lookupA_setA_self {β : Type} (k : Str) (v : β) (l : List (Str × β)) :
    lookupA k (setA k v l) = some v := by
  induction l with
  | nil => simp [setA, lookupA]
  | cons p rest ih =>
    obtain ⟨k', v'⟩ := p
    by_cases h : k' = k
    · subst h; simp [setA, lookupA]
    · simp [setA, lookupA, h, ih]

theorem countKey_cons {β : Type} (k k' : Str) (v : β) (l : List (Str × β)) :
    countKey k ((k', v) :: l) = (if k' = k then 1 else 0) + countKey k l := by
  by_cases h : k' = k
  · simp [countKey, List.filter_cons, h]
    omega
  · simp [countKey, List.filter_cons, h]

theorem countKey_setA {β : Type} (k : Str) (v : β) (l : List (Str × β)) :
    countKey k (setA k v l) = if countKey k l = 0 then 1 else countKey k l := by
  induction l with
  | nil => simp [setA, countKey]
  | cons p rest ih =>
    obtain ⟨k', v'⟩ := p
    by_cases h : k' = k
    · subst h
      have hs : setA k' v ((k', v') :: rest) = (k', v) :: rest := by simp [setA]
      have hne : ¬(1 + countKey k' rest = 0) := by omega
      rw [hs, countKey_cons, countKey_cons]
      simp only [eq_self_iff_true, if_true]
      rw [if_neg hne]
    · have hs : setA k v ((k', v') :: rest) = (k', v') :: setA k v rest := by simp [setA, h]
      rw [hs, countKey_cons, countKey_cons]
      simp only [if_neg h, Nat.zero_add, ih]

theorem countKey_eq_zero {β : Type} (k : Str) (l : List (Str × β))
    (h : k ∉ l.map Prod.fst) : countKey k l = 0 := by
  induction l with
  | nil => rfl
  | cons p rest ih =>
    rw [List.map_cons, List.mem_cons] at h
    push_neg at h
    rw [countKey_cons, if_neg (fun he => h.1 he.symm), ih h.2]

theorem countKey_le_one {β : Type} (k : Str) (l : List (Str × β))
    (h : (l.map Prod.fst).Nodup) : countKey k l ≤ 1 := by
  induction l with
  | nil => simp [countKey]
  | cons p rest ih =>
    rw [List.map_cons, List.nodup_cons] at h
    rw [countKey_cons]
    by_cases he : p.1 = k
    · rw [if_pos he]
      have h0 : countKey k rest = 0 := countKey_eq_zero k rest (by rw [← he]; exact h.1)
      omega
    · rw [if_neg he]
      have := ih h.2
      omega

theorem scrapeStore_version (st : Store) (url : Url) (ps : List PageData) (tags : List Str) :
    (scrapeStore st url ps tags).2.version
      = (match ((lookupA (urlToDomain url) st.dirs).getD emptyDir).metadata with
         | some m => m.version
         | none => 0) + 1 := rfl

theorem scrapeStore_dirs (st : Store) (url : Url) (ps : List PageData) (tags : List Str) :
    (scrapeStore st url ps tags).1.dirs
      = setA (urlToDomain url)
          ⟨(scrapeLoop url ps
              ⟨[], ((lookupA (urlToDomain url) st.dirs).getD emptyDir).files, [], 0⟩).files,
            some (scrapeStore st url ps tags).2⟩ st.dirs := rfl

theorem scrapeStore_sites (st : Store) (url : Url) (ps : List PageData) (tags : List Str) :
    ∃ e : SiteEntry, (((scrapeStore st url ps tags).1.index).getD ⟨1, []⟩).sites
      = setA (urlToDomain url) e ((st.index.getD ⟨1, []⟩)).sites := ⟨_, rfl⟩

/-- C8: scraping a domain twice increments `version` by exactly one (with
version 1 on a first scrape that finds no prior metadata), and the master
index afterwards holds exactly one `sites` entry for the domain. -/
theorem scrape_version_monotonic (st : Store) (url : Url) (p1 p2 : List PageData)
    (t1 t2 : List Str) :
    ((∀ d, lookupA (urlToDomain url) st.dirs = some d → d.metadata = none) →
        (scrapeStore st url p1 t1).2.version = 1) ∧
      (scrapeStore (scrapeStore st url p1 t1).1 url p2 t2).2.version
          = (scrapeStore st url p1 t1).2.version + 1 ∧
      ((∀ i, st.index = some i → (i.sites.map Prod.fst).Nodup) →
        countKey (urlToDomain url)
            (((scrapeStore (scrapeStore st url p1 t1).1 url p2 t2).1.index).getD ⟨1, []⟩).sites
          = 1) := by
  refine ⟨?_, ?_, ?_⟩
  · intro hnone
    rw [scrapeStore_version]
    cases hl : lookupA (urlToDomain url) st.dirs with
    | none => rfl
    | some d => simp [hnone d hl]
  · rw [scrapeStore_version (scrapeStore st url p1 t1).1]
    rw [scrapeStore_dirs, lookupA_setA_self]
    rfl
  · intro hnodup
    obtain ⟨e2, he2⟩ := scrapeStore_sites (scrapeStore st url p1 t1).1 url p2 t2
    obtain ⟨e1, he1⟩ := scrapeStore_sites st url p1 t1
    rw [he2, he1, countKey_setA, countKey_setA]
    have hc0 : countKey (urlToDomain url) ((st.index.getD ⟨1, []⟩)).sites ≤ 1 := by
      cases hi : st.index with
      | none => simp [countKey]
      | some i => simpa using countKey_le_one _ _ (hnodup i hi)
    rcases Nat.le_one_iff_eq_zero_or_eq_one.mp hc0 with h0 | h1
    · simp [h0]
    · simp [h1]

/-- Witness for C8: scraping a fresh empty store twice for the same domain. -/
theorem scrape_version_monotonic_witness :
    (∀ d : DomainDir, lookupA (urlToDomain c2Url) (Store.mk [] none).dirs = some d →
        d.metadata = none) ∧
      (∀ i : DocsIndex, (Store.mk [] none).index = some i → (i.sites.map Prod.fst).Nodup) ∧
      (scrapeStore ⟨[], none⟩ c2Url [] []).2.version = 1 ∧
      (scrapeStore (scrapeStore ⟨[], none⟩ c2Url [] []).1 c2Url [] []).2.version
        = (scrapeStore ⟨[], none⟩ c2Url [] []).2.version + 1 ∧
      countKey (urlToDomain c2Url)
          (((scrapeStore (scrapeStore ⟨[], none⟩ c2Url [] []).1 c2Url [] []).1.index).getD
            ⟨1, []⟩).sites = 1 :=
  by
  refine ⟨?_, ?_⟩
  case refine_1 => exact fun d hd => nomatch hd
  case refine_2 =>
    refine ⟨?_, ?_⟩
    case refine_1 => exact fun i hi => nomatch hi
    case refine_2 =>
      refine ⟨?_, ?_⟩
      case refine_1 =>
        exact (scrape_version_monotonic ⟨[], none⟩ c2Url [] [] [] []).1 (fun d hd => nomatch hd)
      case refine_2 =>
        refine ⟨?_, ?_⟩
        case refine_1 => exact (scrape_version_monotonic ⟨[], none⟩ c2Url [] [] [] []).2.1
        case refine_2 =>
          exact (scrape_version_monotonic ⟨[], none⟩ c2Url [] [] [] []).2.2
            (fun i hi => nomatch hi)

theorem scrapeLoop_titles (url : Url) : ∀ (ps : List PageData) (s : ScrapeLoopState),
    List.map PageRef.title (scrapeLoop url ps s).pages
      = List.map PageRef.title s.pages ++ List.map pageTitle ps := by
  intro ps
  induction ps with
  | nil => intro s; simp [scrapeLoop]
  | cons p rest ih =>
    intro s
    rw [scrapeLoop_cons, ih, scrapeStep_pages, List.map_append]
    simp

theorem scrapeLoop_sources (url : Url) : ∀ (ps : List PageData) (s : ScrapeLoopState),
    List.map PageRef.sourceUrl (scrapeLoop url ps s).pages
      = List.map PageRef.sourceUrl s.pages ++ List.map (fun p => (pageSource p url).raw) ps := by
  intro ps
  induction ps with
  | nil => intro s; simp [scrapeLoop]
  | cons p rest ih =>
    intro s
    rw [scrapeLoop_cons, ih, scrapeStep_pages, List.map_append]
    simp

/-- C9: after a crawl result is written for a domain, `getDoc` on the
domain with no path returns exactly the page list just written — the same
paths in the same order, with the written titles and source URLs (which
are the crawl pages' titles and source URLs, in order). -/
theorem scrape_getDoc_roundtrip (st : Store) (url : Url) (ps : List PageData) (tags : List Str) :
    getDoc (scrapeStore st url ps tags).1 (urlToDomain url) none
        = .ok ((scrapeStore st url ps tags).2.pages.map (fun pg => ⟨pg.path, docListing pg⟩)) ∧
      List.map PageRef.title (scrapeStore st url ps tags).2.pages = List.map pageTitle ps ∧
      List.map PageRef.sourceUrl (scrapeStore st url ps tags).2.pages
        = List.map (fun p => (pageSource p url).raw) ps := by
  refine ⟨?_, ?_, ?_⟩
  · unfold getDoc
    rw [scrapeStore_dirs, lookupA_setA_self]
  · rw [scrapeStore_pages, scrapeLoop_titles]
    simp
  · rw [scrapeStore_pages, scrapeLoop_sources]
    simp

/-- Witness for C9 at a concrete one-page crawl over an empty store. -/
theorem scrape_getDoc_roundtrip_witness :
    getDoc (scrapeStore ⟨[], none⟩ c2Url [c2Page] []).1 (urlToDomain c2Url) none
        = .ok ((scrapeStore ⟨[], none⟩ c2Url [c2Page] []).2.pages.map
            (fun pg => ⟨pg.path, docListing pg⟩)) ∧
      List.map PageRef.title (scrapeStore ⟨[], none⟩ c2Url [c2Page] []).2.pages
        = List.map pageTitle [c2Page] ∧
      List.map PageRef.sourceUrl (scrapeStore ⟨[], none⟩ c2Url [c2Page] []).2.pages
        = List.map (fun p => (pageSource p c2Url).raw) [c2Page] :=
  scrape_getDoc_roundtrip ⟨[], none⟩ c2Url [c2Page] []

/-- C3 (counterexample): with a cap of 1500 ms, base 1000 ms and constant
jitter 600 ms, an operation failing twice retryably and succeeding on the
third attempt sleeps 1500 ms after attempt 1 — less than
baseDelayMs * 2^1 = 2000 ms, and different from the capped exponential
delay plus jitter (2100 ms): the code adds the jitter before the cap. -/
theorem retry_backoff_counterexample :
    (retryRequest c3Opts c3Fn c3Jitter).result = .ok 7 ∧
      (retryRequest c3Opts c3Fn c3Jitter).sleeps = [1500, 1500] ∧
      ¬ (c3Opts.baseDelayMs * 2 ^ 1 ≤ 1500) ∧
      (1500 : ℚ) ≠ min (c3Opts.baseDelayMs * 2 ^ 1) c3Opts.maxDelayMs + c3Jitter 1 := by
  refine ⟨rfl, ?_, ?_, ?_⟩
  · show [backoffDelay c3Opts c3Jitter 0, backoffDelay c3Opts c3Jitter 1] = [1500, 1500]
    norm_num [backoffDelay, c3Opts, c3Jitter, min_def]
  · norm_num [c3Opts]
  · norm_num [c3Opts, c3Jitter, min_def]

/-- C3 (amended): an operation that fails twice with a retryable error and
succeeds on the third attempt returns the successful result and performs
exactly two backoff sleeps; the sleep after attempt index a equals
min(baseDelayMs * 2^a + jitter, maxDelayMs) with the random jitter (in
[0, 1000)) added before the cap is applied, and is therefore at least
min(baseDelayMs * 2^a, maxDelayMs) — which equals baseDelayMs * 2^a
whenever that does not exceed the cap, as with the default options. -/
theorem retry_backoff_two_failures {α : Type} (o : RetryOptions) (fn : Nat → Except ReqErr α)
    (jitter : Nat → ℚ) (v : α) (e0 e1 : ReqErr)
    (hmax : o.maxRetries = 3)
    (h0 : fn 0 = .error e0) (h0r : nonRetryable e0 = false)
    (h1 : fn 1 = .error e1) (h1r : nonRetryable e1 = false)
    (h2 : fn 2 = .ok v)
    (hj0 : 0 ≤ jitter 0) (hj0u : jitter 0 < 1000)
    (hj1 : 0 ≤ jitter 1) (hj1u : jitter 1 < 1000) :
    (retryRequest o fn jitter).result = .ok v ∧
      (retryRequest o fn jitter).sleeps
        = [min (o.baseDelayMs * 2 ^ 0 + jitter 0) o.maxDelayMs,
           min (o.baseDelayMs * 2 ^ 1 + jitter 1) o.maxDelayMs] ∧
      min (o.baseDelayMs * 2 ^ 0) o.maxDelayMs
          ≤ min (o.baseDelayMs * 2 ^ 0 + jitter 0) o.maxDelayMs ∧
      min (o.baseDelayMs * 2 ^ 1) o.maxDelayMs
          ≤ min (o.baseDelayMs * 2 ^ 1 + jitter 1) o.maxDelayMs := by
  have key : retryRequest o fn jitter
      = ⟨.ok v, [backoffDelay o jitter 0, backoffDelay o jitter 1], 3⟩ := by
    unfold retryRequest
    rw [hmax]
    simp [retryAux, h0, h0r, h1, h1r, h2]
  refine ⟨?_, ?_, ?_, ?_⟩
  · rw [key]
  · rw [key]
    simp [backoffDelay]
  · exact min_le_min (by linarith) (le_refl _)
  · exact min_le_min (by linarith) (le_refl _)

/-- Witness for C3's amended theorem at the default retry options. -/
theorem retry_backoff_two_failures_witness :
    defaultRetryOptions.maxRetries = 3 ∧
      (nonRetryable (ReqErr.generic "network failure") = false ∧
        ((0 : ℚ) ≤ c3JitterW 0 ∧ c3JitterW 0 < 1000 ∧
          ((retryRequest defaultRetryOptions c3Fn c3JitterW).result = .ok 7 ∧
            (retryRequest defaultRetryOptions c3Fn c3JitterW).sleeps
              = [min (defaultRetryOptions.baseDelayMs * 2 ^ 0 + c3JitterW 0)
                  defaultRetryOptions.maxDelayMs,
                 min (defaultRetryOptions.baseDelayMs * 2 ^ 1 + c3JitterW 1)
                  defaultRetryOptions.maxDelayMs] ∧
            min (defaultRetryOptions.baseDelayMs * 2 ^ 0) defaultRetryOptions.maxDelayMs
                ≤ min (defaultRetryOptions.baseDelayMs * 2 ^ 0 + c3JitterW 0)
                    defaultRetryOptions.maxDelayMs ∧
            min (defaultRetryOptions.baseDelayMs * 2 ^ 1) defaultRetryOptions.maxDelayMs
                ≤ min (defaultRetryOptions.baseDelayMs * 2 ^ 1 + c3JitterW 1)
                    defaultRetryOptions.maxDelayMs))) :=
  ⟨rfl, ⟨rfl, ⟨by norm_num [c3JitterW], ⟨by norm_num [c3JitterW],
    retry_backoff_two_failures defaultRetryOptions c3Fn c3JitterW 7
      (ReqErr.generic "network failure") (ReqErr.generic "network failure")
      rfl rfl rfl rfl rfl rfl
      (by norm_num [c3JitterW]) (by norm_num [c3JitterW])
      (by norm_num [c3JitterW]) (by norm_num [c3JitterW])⟩⟩⟩⟩

theorem retryAux_all_fail {α : Type} (o : RetryOptions) (fn : Nat → Except ReqErr α)
    (jitter : Nat → ℚ) (es : Nat → ReqErr) :
    ∀ (k attempt : Nat) (le : Option ReqErr),
    (∀ i, i < k → fn (attempt + i) = .error (es (attempt + i)) ∧
      nonRetryable (es (attempt + i)) = false) →
    (retryAux o fn jitter attempt k le).result
        = .error (if k = 0 then le.getD (retryFallback o) else es (attempt + k - 1)) ∧
      (retryAux o fn jitter attempt k le).calls = k := by
  intro k
  induction k with
  | zero => intro attempt le _; simp [retryAux]
  | succ k ih =>
    intro attempt le h
    have h0 := h 0 (Nat.succ_pos k)
    rw [Nat.add_zero] at h0
    have hshift : ∀ i, i < k → fn (attempt + 1 + i) = .error (es (attempt + 1 + i)) ∧
        nonRetryable (es (attempt + 1 + i)) = false := fun i hi => by
      have := h (i + 1) (by omega)
      rwa [show attempt + (i + 1) = attempt + 1 + i by omega] at this
    have hrec := ih (attempt + 1) (some (es attempt)) hshift
    simp only [retryAux, h0.1, h0.2, Bool.false_eq_true, if_false]
    constructor
    · rw [hrec.1]
      by_cases hk0 : k = 0
      · subst hk0; simp
      · rw [if_neg hk0, if_neg (Nat.succ_ne_zero k)]
        congr 2
        omega
    · rw [hrec.2]

theorem retryAux_nonretry {α : Type} (o : RetryOptions) (fn : Nat → Except ReqErr α)
    (jitter : Nat → ℚ) (es : Nat → ReqErr) :
    ∀ (a attempt rem : Nat) (le : Option ReqErr) (ea : ReqErr), a < rem →
    (∀ i, i < a → fn (attempt + i) = .error (es (attempt + i)) ∧
      nonRetryable (es (attempt + i)) = false) →
    fn (attempt + a) = .error ea → nonRetryable ea = true →
    (retryAux o fn jitter attempt rem le).result = .error ea ∧
      (retryAux o fn jitter attempt rem le).calls = a + 1 := by
  intro a
  induction a with
  | zero =>
    intro attempt rem le ea hrem _ hfa har
    cases rem with
    | zero => omega
    | succ rem =>
      rw [Nat.add_zero] at hfa
      simp [retryAux, hfa, har]
  | succ a ih =>
    intro attempt rem le ea hrem h hfa har
    cases rem with
    | zero => omega
    | succ rem =>
      have h0 := h 0 (Nat.succ_pos a)
      rw [Nat.add_zero] at h0
      have hshift : ∀ i, i < a → fn (attempt + 1 + i) = .error (es (attempt + 1 + i)) ∧
          nonRetryable (es (attempt + 1 + i)) = false := fun i hi => by
        have := h (i + 1) (by omega)
        rwa [show attempt + (i + 1) = attempt + 1 + i by omega] at this
      have hfa' : fn (attempt + 1 + a) = .error ea := by
        rwa [show attempt + (a + 1) = attempt + 1 + a by omega] at hfa
      have hrec := ih (attempt + 1) rem (some (es attempt)) ea (by omega) hshift hfa' har
      simp only [retryAux, h0.1, h0.2, Bool.false_eq_true, if_false]
      exact ⟨hrec.1, by rw [hrec.2]⟩

/-- C5: an attempt failing with a ScraperError classified InvalidUrl,
InvalidOptions or RateLimited is re-raised immediately — the wrapped
operation is called exactly a+1 times, so no further retry happens — while
a run of retryable errors is retried until the budget is exhausted, after
which the last error encountered is surfaced. -/
theorem retry_error_classification {α : Type} (o : RetryOptions) (fn : Nat → Except ReqErr α)
    (jitter : Nat → ℚ) (es : Nat → ReqErr) :
    (∀ (a : Nat) (ea : ReqErr), a < o.maxRetries →
        (∀ i, i < a → fn i = .error (es i) ∧ nonRetryable (es i) = false) →
        fn a = .error ea → nonRetryable ea = true →
        (retryRequest o fn jitter).result = .error ea ∧
          (retryRequest o fn jitter).calls = a + 1) ∧
      (0 < o.maxRetries →
        (∀ i, i < o.maxRetries → fn i = .error (es i) ∧ nonRetryable (es i) = false) →
        (retryRequest o fn jitter).result = .error (es (o.maxRetries - 1)) ∧
          (retryRequest o fn jitter).calls = o.maxRetries) := by
  constructor
  · intro a ea ha hprev hfa har
    exact retryAux_nonretry o fn jitter es a 0 o.maxRetries none ea ha
      (fun i hi => by simpa using hprev i hi) (by simpa using hfa) har
  · intro hpos hall
    have hres := retryAux_all_fail o fn jitter es o.maxRetries 0 none
      (fun i hi => by simpa using hall i hi)
    rw [if_neg (by omega)] at hres
    simpa using hres

/-- Witness for C5: a first-attempt rate-limit error is re-raised after a
single call of the wrapped operation. -/
theorem retry_error_classification_witness :
    (0 : Nat) < defaultRetryOptions.maxRetries ∧
      (c5Fn 0 = .error c5Err ∧
        (nonRetryable c5Err = true ∧
          ((retryRequest defaultRetryOptions c5Fn (fun _ => 0)).result = .error c5Err ∧
            (retryRequest defaultRetryOptions c5Fn (fun _ => 0)).calls = 0 + 1))) :=
  ⟨by norm_num [defaultRetryOptions], ⟨rfl, ⟨rfl,
    (retry_error_classification defaultRetryOptions c5Fn (fun _ => 0) (fun _ => c5Err)).1
      0 c5Err (by norm_num [defaultRetryOptions]) (fun i hi => absurd hi (by omega))
      rfl rfl⟩⟩⟩

theorem pollAux_timeout (statuses : Nat → PollResponse) (jobId : String) :
    ∀ (rem i : Nat), (∀ d, d < rem → terminalRaw (statuses (i + d)) = false) →
    (pollAux statuses jobId rem i).1
      = .error ⟨"Crawl timed out after 10 minutes", .crawlTimeout, some jobId⟩ := by
  intro rem
  induction rem with
  | zero => intro i _; rfl
  | succ rem ih =>
    intro i h
    have h0 := h 0 (Nat.succ_pos rem)
    rw [Nat.add_zero] at h0
    simp only [terminalRaw, Bool.or_eq_false_iff, beq_eq_false_iff_ne, ne_eq] at h0
    simp only [pollAux, if_neg h0.1.1, if_neg h0.1.2, if_neg h0.2]
    exact ih (i + 1) (fun d hd => by
      have := h (d + 1) (by omega)
      rwa [show i + (d + 1) = i + 1 + d by omega] at this)

/-- C6: a crawl job whose polled raw status never names a terminal state
within the 120 polls fails with `CrawlTimeout` (carrying the job id), and
with no other error kind. -/
theorem poll_timeout_kind (statuses : Nat → PollResponse) (jobId : String)
    (h : ∀ i, i < 120 → terminalRaw (statuses i) = false) :
    (pollForCompletion statuses jobId).1
      = .error ⟨"Crawl timed out after 10 minutes", .crawlTimeout, some jobId⟩ :=
  pollAux_timeout statuses jobId 120 0 (fun d hd => by simpa using h d hd)

/-- Witness for C6: a job that reports `pending` forever. -/
theorem poll_timeout_kind_witness :
    (∀ i, i < 120 → terminalRaw ((fun _ => pendingResp) i : PollResponse) = false) ∧
      (pollForCompletion (fun _ => pendingResp) "job-1").1
        = .error ⟨"Crawl timed out after 10 minutes", .crawlTimeout, some "job-1"⟩ :=
  ⟨by decide, poll_timeout_kind (fun _ => pendingResp) "job-1" (by decide)⟩

theorem pollAux_skip (statuses : Nat → PollResponse) (jobId : String) :
    ∀ (k rem i : Nat), k < rem → (∀ d, d < k → terminalRaw (statuses (i + d)) = false) →
    (pollAux statuses jobId rem i).1 = (pollAux statuses jobId (rem - k) (i + k)).1 := by
  intro k
  induction k with
  | zero => intro rem i _ _; simp
  | succ k ih =>
    intro rem i hk h
    cases rem with
    | zero => omega
    | succ rem =>
      have h0 := h 0 (Nat.succ_pos k)
      rw [Nat.add_zero] at h0
      simp only [terminalRaw, Bool.or_eq_false_iff, beq_eq_false_iff_ne, ne_eq] at h0
      simp only [pollAux, if_neg h0.1.1, if_neg h0.1.2, if_neg h0.2]
      have := ih rem (i + 1) (by omega) (fun d hd => by
        have := h (d + 1) (by omega)
        rwa [show i + (d + 1) = i + 1 + d by omega] at this)
      have e1 : rem + 1 - (k + 1) = rem - k := by omega
      have e2 : i + (k + 1) = i + 1 + k := by omega
      rw [this, e1, e2]

/-- C7: the raw provider status is mapped to the five canonical states —
`scraping` and `crawling` both map to crawling, the three terminal names map
to themselves, and every unrecognized value maps to pending — and the poll
loop, at the first poll whose raw status is terminal, returns the
accumulated page set on `completed`, fails with `CrawlFailed` carrying the
job id on `failed` or `cancelled`, and keeps polling on anything else. -/
theorem poll_status_dispatch :
    mapCrawlStatus "scraping" = CanonStatus.crawling ∧
      mapCrawlStatus "crawling" = CanonStatus.crawling ∧
      mapCrawlStatus "completed" = CanonStatus.completed ∧
      mapCrawlStatus "failed" = CanonStatus.failed ∧
      mapCrawlStatus "cancelled" = CanonStatus.cancelled ∧
      (∀ s : String, s ≠ "completed" → s ≠ "failed" → s ≠ "cancelled" → s ≠ "scraping" →
        s ≠ "crawling" → mapCrawlStatus s = CanonStatus.pending) ∧
      (∀ (statuses : Nat → PollResponse) (jobId : String) (k : Nat), k < 120 →
        (∀ d, d < k → terminalRaw (statuses d) = false) →
        ((statuses k).status = "completed" →
          (pollForCompletion statuses jobId).1 = .ok ((statuses k).data.getD [])) ∧
        ((statuses k).status = "failed" →
          (pollForCompletion statuses jobId).1
            = .error ⟨((statuses k).error).getD "Crawl job failed", .crawlFailed, some jobId⟩) ∧
        ((statuses k).status = "cancelled" →
          (pollForCompletion statuses jobId).1
            = .error ⟨"Crawl job was cancelled", .crawlFailed, some jobId⟩)) := by
  refine ⟨rfl, rfl, rfl, rfl, rfl, ?_, ?_⟩
  · intro s h1 h2 h3 h4 h5
    unfold mapCrawlStatus
    rw [if_neg h1, if_neg h2, if_neg h3, if_neg h4, if_neg h5]
  · intro statuses jobId k hk hprev
    have hskip : (pollForCompletion statuses jobId).1
        = (pollAux statuses jobId (120 - k) (0 + k)).1 :=
      pollAux_skip statuses jobId k 120 0 hk (fun d hd => by simpa using hprev d hd)
    obtain ⟨m, hm⟩ : ∃ m, 120 - k = m + 1 := ⟨120 - k - 1, by omega⟩
    rw [hskip, hm, Nat.zero_add]
    refine ⟨?_, ?_, ?_⟩
    · intro hc
      simp [pollAux, hc]
    · intro hc
      have hne : (statuses k).status ≠ "completed" := by rw [hc]; decide
      simp [pollAux, hc, hne]
    · intro hc
      have hne1 : (statuses k).status ≠ "completed" := by rw [hc]; decide
      have hne2 : (statuses k).status ≠ "failed" := by rw [hc]; decide
      simp [pollAux, hc, hne1, hne2]

/-- Witness for C7: a first poll that reports `completed` delivers its
data immediately. -/
theorem poll_status_dispatch_witness :
    ((fun _ => completedResp) 0 : PollResponse).status = "completed" ∧
      (pollForCompletion (fun _ => completedResp) "job-2").1
        = .ok (completedResp.data.getD []) :=
  ⟨rfl,
    ((poll_status_dispatch.2.2.2.2.2.2 (fun _ => completedResp) "job-2" 0 (by omega)
      (fun d hd => absurd hd (by omega))).1 rfl)⟩
